import Mathlib

/-!
Verification of the link-completion query engine
(`crates/completions/src/querier.rs` of markdown-oxide).

The pipeline under verification: canonicalise a typed `LinkQuery` into one
match string (`link_query_string`), enumerate the vault's referenceable
nodes into `NamedEntity` values (`Querier.get_named_entities`), derive each
entity's canonical match string (`MatchableNamedEntity::from`), score the
candidates against the query string (`fuzzy_match`), and return the matched
entities with scores dropped (`Querier.query`).

Modelling conventions:
* Rust `std::path::Path` is embedded as its list of parsed components;
  `Path::file_name` returns the last component when it is a normal
  (named) component, and `None` otherwise (root-only, empty, or
  `..`-terminated paths).  Components are Lean `String`s, so they are
  always valid UTF-8; the `to_str().unwrap()` step of the source never
  fails in the embedding.
* The `.unwrap()` panic in `MatchableNamedEntity::from` is embedded by
  making the conversion return `Option`: `none` is the panic.  `query`
  forces every conversion (`collect::<Vec<_>>()` in the source) before
  scoring, so a single `none` makes the whole query `none`.
* The nucleo fuzzy-matching engine is a third-party crate; its scoring
  algorithm is abstracted as a parameter
  `score : String → String → Option Nat` (pattern, candidate ↦ optional
  relevance), while the surrounding behaviour of `Pattern::match_list`
  (empty pattern matches everything with score 0; non-matching candidates
  dropped; stable descending sort by score, Rust's `sort_by_key` being
  stable) is embedded concretely per the spec's description of the
  FuzzyScorer stage.
* Rayon's order-preserving parallel iterators are embedded as sequential
  lists; the scheduling freedom of the parallel enumeration is modelled
  separately as an arbitrary chunking of the node list (`parFilterMap`),
  over which the output is proved invariant.
-/

/-- Modelled from the documented behaviour of `std::path::Path`
(external to this repository): a path is its list of parsed components. -/
inductive PathComponent : Type where
  | rootDir : PathComponent
  | curDir : PathComponent
  | parentDir : PathComponent
  | normal (s : String) : PathComponent
deriving DecidableEq, Repr

/-- A path, as `std::path::Path`: the list of its components. -/
def FsPath : Type := List PathComponent
deriving DecidableEq, Repr

/-- Modelled from the documented behaviour of `std::path::Path::file_name`:
the final component, when it is a normal (named) component; `None` for
paths that are empty, root-only, or end in `..`/`.`. -/
def FsPath.file_name (p : FsPath) : Option String :=
  match List.getLast? p with
  | some (PathComponent.normal s) => some s
  | _ => none

/-- `MDHeading` of the vault crate (not under `src/`): only the
`heading_text` field is consumed by the querier (the source pattern
elides the rest with `..`). -/
structure MDHeading where
  heading_text : String
deriving DecidableEq, Repr

/-- `MDIndexedBlock` of the vault crate (not under `src/`): only the
`index` field is consumed by the querier. -/
structure MDIndexedBlock where
  index : String
deriving DecidableEq, Repr

/-- Modelled from the spec: the vault crate's `Referenceable` (not under
`src/`) is "a closed set of kinds including at least File, Heading
(carrying heading text), IndexedBlock (carrying a block identifier), and
possibly other kinds this subsystem must ignore; each node carries the
location (path) of its containing document".  `tag` and `otherKind`
stand for those additional kinds. -/
inductive Referenceable : Type where
  | file (path : FsPath) : Referenceable
  | heading (path : FsPath) (h : MDHeading) : Referenceable
  | indexedBlock (path : FsPath) (b : MDIndexedBlock) : Referenceable
  | tag (path : FsPath) (t : String) : Referenceable
  | otherKind (path : FsPath) : Referenceable
deriving DecidableEq, Repr

/-- Modelled from the spec: the vault (owned outside this subsystem)
exposes "a read-only enumeration of referenceable nodes". -/
structure Vault where
  referenceables : List Referenceable
deriving DecidableEq, Repr

/-- Modelled from the spec: `Vault::select_referenceable_nodes` (vault
crate, not under `src/`).  The querier calls it with filter `None`,
i.e. it receives the full enumeration. -/
def Vault.select_referenceable_nodes (v : Vault) : List Referenceable :=
  v.referenceables

/-- `InfileRef` of `crate::parser` (not under `src/`), modelled from the
spec: an optional in-file anchor, `Heading(fragment)` or `Index(fragment)`. -/
inductive InfileRef : Type where
  | heading (s : String) : InfileRef
  | index (s : String) : InfileRef
deriving DecidableEq, Repr

/-- `LinkQuery` of `crate::parser` (not under `src/`), modelled from the
spec: the user's typed intent, a `file_ref` fragment plus an optional
`infile_ref`. -/
structure LinkQuery where
  file_ref : String
  infile_ref : Option InfileRef
deriving DecidableEq, Repr

/-- `NamedEntityInfo` (source lines 78–82). -/
inductive NamedEntityInfo : Type where
  | file : NamedEntityInfo
  | heading (s : String) : NamedEntityInfo
  | indexedBlock (s : String) : NamedEntityInfo
deriving DecidableEq, Repr

/-- `NamedEntity` (source line 73): a path together with kind data. -/
structure NamedEntity where
  path : FsPath
  info : NamedEntityInfo
deriving DecidableEq, Repr

/-- `link_query_string` (source lines 56–71). -/
def link_query_string (link_query : LinkQuery) : String :=
  match link_query with
  | { file_ref := file_ref, infile_ref := none } => file_ref
  | { file_ref := file_ref, infile_ref := some (InfileRef.heading heading_string) } =>
      file_ref ++ "#" ++ heading_string
  | { file_ref := file_ref, infile_ref := some (InfileRef.index index) } =>
      file_ref ++ "#^" ++ index

/-- `MatchableNamedEntity` (source line 84): the derived match string
paired with the entity it came from. -/
structure MatchableNamedEntity where
  mstring : String
  entity : NamedEntity
deriving DecidableEq, Repr

/-- `impl From<NamedEntity> for MatchableNamedEntity` (source lines
86–98).  The source unwraps `value.0.file_name()` and `to_str()`;
`none` embeds that panic (`to_str` cannot fail on `String` components).
The `File` kind is the wildcard arm of the source `match`. -/
def MatchableNamedEntity.fromNamedEntity (value : NamedEntity) :
    Option MatchableNamedEntity :=
  match FsPath.file_name value.path with
  | none => none
  | some file_ref =>
      let match_string :=
        match value.info with
        | NamedEntityInfo.heading heading => file_ref ++ "#" ++ heading
        | NamedEntityInfo.indexedBlock index => file_ref ++ "#^" ++ index
        | _ => file_ref
      some { mstring := match_string, entity := value }

/-- `impl From<MatchableNamedEntity> for NamedEntity` (source lines
100–104): projects the stored entity back out. -/
def MatchableNamedEntity.toNamedEntity (value : MatchableNamedEntity) :
    NamedEntity :=
  value.entity

/-- The `Matchable` trait (source lines 125–127). -/
class Matchable (α : Type) where
  match_string : α → String

instance : Matchable MatchableNamedEntity where
  match_string m := m.mstring

/-- Stable descending insertion by score: the inserted element goes in
front of every element whose score is not strictly larger, so an earlier
element precedes later elements of equal score. -/
def insertByScore {α : Type} (a : α × Nat) : List (α × Nat) → List (α × Nat)
  | [] => [a]
  | b :: l => if a.2 < b.2 then b :: insertByScore a l else a :: b :: l

/-- Stable sort by descending score: the embedding of Rust's stable
`sort_by_key(|(_, score)| Reverse(*score))` used by nucleo's
`Pattern::match_list`. -/
def sortByScoreDesc {α : Type} : List (α × Nat) → List (α × Nat)
  | [] => []
  | a :: l => insertByScore a (sortByScoreDesc l)

/-- The unsorted scored candidate list, in original input order: every
candidate with score 0 for the empty pattern, otherwise one entry per
candidate the scorer accepts (zero-affinity candidates are dropped, not
scored 0). -/
def scoredCandidates {α : Type} [Matchable α]
    (score : String → String → Option Nat) (pat : String) (items : List α) :
    List (α × Nat) :=
  if pat = "" then items.map (fun a => (a, 0))
  else items.filterMap (fun a =>
    Option.map (fun n => (a, n)) (score pat (Matchable.match_string a)))

/-- Modelled from the spec: nucleo's `Pattern::parse` + `match_list`
(third-party crate, external to this repository).  "An empty `filterText`
is defined to match every candidate"; otherwise "one score per candidate
that passed the match (candidates with zero affinity to the pattern are
dropped)"; "result ordering is by descending relevance score", with "a
stable, deterministic total order for equal scores, e.g. by original
input order".  The per-candidate relevance computation (smart case,
smart normalization) is the abstract parameter `score`. -/
def match_list {α : Type} [Matchable α]
    (score : String → String → Option Nat) (pat : String) (items : List α) :
    List (α × Nat) :=
  if pat = "" then items.map (fun a => (a, 0))
  else sortByScoreDesc (items.filterMap (fun a =>
    Option.map (fun n => (a, n)) (score pat (Matchable.match_string a))))

/-- `fuzzy_match` (source lines 144–160): wraps the items for nucleo (the
`NucleoMatchable` adapter only forwards `match_string`, so it is elided)
and runs the parsed pattern's `match_list`, keeping the (item, score)
pairs in the order the matcher produced. -/
def fuzzy_match {α : Type} [Matchable α]
    (score : String → String → Option Nat) (filter_text : String)
    (items : List α) : List (α × Nat) :=
  match_list score filter_text items

/-- `Querier` (source lines 13–15): a borrowed vault. -/
structure Querier where
  vault : Vault

/-- The per-node mapping of `Querier::get_named_entities` (source lines
40–52): keep File, Heading and IndexedBlock nodes, destructuring the
carried data; the wildcard arm discards every other kind. -/
def referenceableToEntity (it : Referenceable) : Option NamedEntity :=
  match it with
  | Referenceable.file path => some { path := path, info := NamedEntityInfo.file }
  | Referenceable.heading path { heading_text := data } =>
      some { path := path, info := NamedEntityInfo.heading data }
  | Referenceable.indexedBlock path { index := data } =>
      some { path := path, info := NamedEntityInfo.indexedBlock data }
  | _ => none

/-- `Querier::get_named_entities` (source lines 36–53): `flat_map` of the
per-node mapping over the vault's node enumeration. -/
def Querier.get_named_entities (q : Querier) : List NamedEntity :=
  (Vault.select_referenceable_nodes q.vault).filterMap referenceableToEntity

/-- The forced conversion of all entities to matchables
(`matchables.collect::<Vec<_>>()` in `query`, source line 30): a panic
in any single conversion (`none`) aborts the whole collection. -/
def collectMatchables : List NamedEntity → Option (List MatchableNamedEntity)
  | [] => some []
  | e :: es =>
      match MatchableNamedEntity.fromNamedEntity e, collectMatchables es with
      | some m, some ms => some (m :: ms)
      | _, _ => none

/-- `Querier::query` (source lines 24–34): collect entities, convert each
to a matchable (forcing the whole vector, where a malformed location
panics — `none`), fuzzy-match against the built query string, and map
the surviving pairs back to entities, dropping scores and preserving the
matcher's order. -/
def Querier.query (score : String → String → Option Nat) (q : Querier)
    (link_query : LinkQuery) : Option (List NamedEntity) :=
  match collectMatchables (Querier.get_named_entities q) with
  | none => none
  | some matchables =>
      some ((fuzzy_match score (link_query_string link_query) matchables).map
        (fun p => MatchableNamedEntity.toNamedEntity p.1))

/-- A chunked run of a `filterMap`: rayon splits the indexed input into
per-worker chunks, each worker maps its chunk, and the results are
reassembled in index order (`IndexedParallelIterator`).  The chunking is
the scheduling choice. -/
def parFilterMap {α β : Type} (f : α → Option β)
    (chunks : List (List α)) : List β :=
  (chunks.map (fun c => c.filterMap f)).flatten

/-- `Querier::get_named_entities` as executed under a particular chunking
of the node list across workers. -/
def get_named_entities_chunked (chunks : List (List Referenceable)) :
    List NamedEntity :=
  parFilterMap referenceableToEntity chunks

/-- `Querier::query` as executed when the entity enumeration was split
across workers according to `chunks`. -/
def query_chunked (score : String → String → Option Nat)
    (chunks : List (List Referenceable)) (link_query : LinkQuery) :
    Option (List NamedEntity) :=
  match collectMatchables (get_named_entities_chunked chunks) with
  | none => none
  | some matchables =>
      some ((fuzzy_match score (link_query_string link_query) matchables).map
        (fun p => MatchableNamedEntity.toNamedEntity p.1))

/-- Spec-side predicate (§4.2): the collector "keeps exactly three kinds
(File, Heading, IndexedBlock) and discards everything else". -/
def isLinkCandidate : Referenceable → Bool
  | Referenceable.file _ => true
  | Referenceable.heading _ _ => true
  | Referenceable.indexedBlock _ _ => true
  | _ => false

/-- Proof device: the node a collected entity came from.  A left inverse
of `referenceableToEntity` on its kept kinds, used to show the collection
never merges two distinct nodes into one entity. -/
def entityToReferenceable (e : NamedEntity) : Referenceable :=
  match e.info with
  | NamedEntityInfo.file => Referenceable.file e.path
  | NamedEntityInfo.heading t => Referenceable.heading e.path { heading_text := t }
  | NamedEntityInfo.indexedBlock i => Referenceable.indexedBlock e.path { index := i }

/-! ### Concrete test data -/

/-- A well-formed location: the single-component path `a.md`. -/
def pGood : FsPath := [PathComponent.normal "a.md"]

/-- A nested well-formed location, `notes/a.md`: its file name is `a.md`,
not the full path. -/
def pNested : FsPath := [PathComponent.normal "notes", PathComponent.normal "a.md"]

/-- A malformed location with no resolvable file-name component: the path
`..`, for which `Path::file_name` returns `None`. -/
def pNone : FsPath := [PathComponent.parentDir]

/-- The entity of the file `a.md`. -/
def entGood : NamedEntity := { path := pGood, info := NamedEntityInfo.file }

/-- A file entity at the malformed location `..`. -/
def entBad : NamedEntity := { path := pNone, info := NamedEntityInfo.file }

/-- The matchable the conversion derives for `entGood`. -/
def mGood : MatchableNamedEntity := { mstring := "a.md", entity := entGood }

/-- A vault holding one well-formed file entity and one entity at a
malformed location. -/
def vaultMixed : Vault :=
  { referenceables := [Referenceable.file pGood, Referenceable.file pNone] }

/-- A querier over `vaultMixed`. -/
def qMixed : Querier := { vault := vaultMixed }

/-- A vault holding one file node and one tag node (a kind the collector
discards). -/
def vaultSmall : Vault :=
  { referenceables := [Referenceable.file pGood, Referenceable.tag pGood "todo"] }

/-- A querier over `vaultSmall`. -/
def qSmall : Querier := { vault := vaultSmall }

/-- The empty vault. -/
def vaultEmpty : Vault := { referenceables := [] }

/-- A querier over the empty vault. -/
def qEmpty : Querier := { vault := vaultEmpty }

/-- A vault whose only node sits at a malformed location. -/
def vaultBadOnly : Vault := { referenceables := [Referenceable.file pNone] }

/-- A querier over `vaultBadOnly`. -/
def qBadOnly : Querier := { vault := vaultBadOnly }

/-- The typed query `a` with no in-file anchor. -/
def lqPlain : LinkQuery := { file_ref := "a", infile_ref := none }

/-- A concrete stand-in for the abstract relevance function: every
candidate matches, scored by its length. -/
def scoreByLength : String → String → Option Nat := fun _ cand => some cand.length

/-- A concrete stand-in for the abstract relevance function: no candidate
matches. -/
def scoreNothing : String → String → Option Nat := fun _ _ => none

/-- One worker schedule for `vaultSmall`: each node in its own chunk. -/
def chunksA : List (List Referenceable) :=
  [[Referenceable.file pGood], [Referenceable.tag pGood "todo"]]

/-- Another worker schedule for `vaultSmall`: both nodes in one chunk. -/
def chunksB : List (List Referenceable) :=
  [[Referenceable.file pGood, Referenceable.tag pGood "todo"]]

/-! ### Helper lemmas about the stable descending sort -/

theorem insertByScore_perm {α : Type} (a : α × Nat) (l : List (α × Nat)) :
    (insertByScore a l).Perm (a :: l) := by
  induction l with
  | nil => exact List.Perm.refl _
  | cons b l ih =>
      by_cases h : a.2 < b.2
      · simpa [insertByScore, h] using (ih.cons b).trans (List.Perm.swap a b l)
      · simp [insertByScore, h]

theorem sortByScoreDesc_perm {α : Type} (l : List (α × Nat)) :
    (sortByScoreDesc l).Perm l := by
  induction l with
  | nil => exact List.Perm.refl _
  | cons a l ih =>
      exact (insertByScore_perm a (sortByScoreDesc l)).trans (ih.cons a)

theorem mem_insertByScore {α : Type} {x a : α × Nat} {l : List (α × Nat)} :
    x ∈ insertByScore a l ↔ x = a ∨ x ∈ l := by
  constructor
  · intro hx
    simpa using (insertByScore_perm a l).mem_iff.mp hx
  · intro hx
    refine (insertByScore_perm a l).mem_iff.mpr ?_
    simpa using hx

theorem pairwise_insertByScore {α : Type} (a : α × Nat) (l : List (α × Nat))
    (h : List.Pairwise (fun x y : α × Nat => y.2 ≤ x.2) l) :
    List.Pairwise (fun x y : α × Nat => y.2 ≤ x.2) (insertByScore a l) := by
  induction l with
  | nil => simp [insertByScore]
  | cons b l ih =>
      rcases List.pairwise_cons.mp h with ⟨hb, hl⟩
      by_cases hab : a.2 < b.2
      · have htail := ih hl
        have hfront : ∀ y ∈ insertByScore a l, y.2 ≤ b.2 := by
          intro y hy
          rcases mem_insertByScore.mp hy with rfl | hyl
          · exact Nat.le_of_lt hab
          · exact hb y hyl
        simpa [insertByScore, hab] using List.pairwise_cons.mpr ⟨hfront, htail⟩
      · have hfront : ∀ y ∈ b :: l, y.2 ≤ a.2 := by
          intro y hy
          rcases List.mem_cons.mp hy with rfl | hyl
          · exact Nat.le_of_not_lt hab
          · exact Nat.le_trans (hb y hyl) (Nat.le_of_not_lt hab)
        simpa [insertByScore, hab] using List.pairwise_cons.mpr ⟨hfront, h⟩

theorem sorted_sortByScoreDesc {α : Type} (l : List (α × Nat)) :
    List.Pairwise (fun x y : α × Nat => y.2 ≤ x.2) (sortByScoreDesc l) := by
  induction l with
  | nil => simp [sortByScoreDesc]
  | cons a l ih => exact pairwise_insertByScore a (sortByScoreDesc l) ih

theorem filter_insertByScore {α : Type} (a : α × Nat) (l : List (α × Nat))
    (s : Nat) :
    (insertByScore a l).filter (fun x => x.2 == s) =
      if a.2 = s then a :: l.filter (fun x => x.2 == s)
      else l.filter (fun x => x.2 == s) := by
  induction l with
  | nil => by_cases hs : a.2 = s <;> simp [insertByScore, hs]
  | cons b l ih =>
      by_cases hab : a.2 < b.2
      · have h1 : insertByScore a (b :: l) = b :: insertByScore a l := by
          simp [insertByScore, hab]
        by_cases hs : a.2 = s
        · have hbs : (b.2 == s) = false := by
            subst hs
            exact beq_false_of_ne (Nat.ne_of_gt hab)
          simp [h1, List.filter_cons, hbs, ih, hs]
        · simp [h1, List.filter_cons, ih, hs]
      · have h1 : insertByScore a (b :: l) = a :: b :: l := by
          simp [insertByScore, hab]
        by_cases hs : a.2 = s <;> simp [h1, List.filter_cons, hs]

theorem filter_sortByScoreDesc {α : Type} (l : List (α × Nat)) (s : Nat) :
    (sortByScoreDesc l).filter (fun x => x.2 == s) =
      l.filter (fun x => x.2 == s) := by
  induction l with
  | nil => rfl
  | cons a l ih =>
      by_cases hs : a.2 = s
      · simp [sortByScoreDesc, filter_insertByScore, hs, ih]
      · simp [sortByScoreDesc, filter_insertByScore, hs, ih]


/-! ### Helper lemmas about the pipeline -/

theorem parFilterMap_flatten {α β : Type} (f : α → Option β)
    (chunks : List (List α)) :
    parFilterMap f chunks = chunks.flatten.filterMap f := by
  induction chunks with
  | nil => rfl
  | cons c cs ih =>
      simp only [parFilterMap, List.map_cons, List.flatten_cons,
        List.filterMap_append] at ih ⊢
      rw [ih]

theorem referenceableToEntity_eq_file {it : Referenceable} {p : FsPath} :
    referenceableToEntity it = some { path := p, info := NamedEntityInfo.file }
      ↔ it = Referenceable.file p := by
  cases it <;> simp [referenceableToEntity]

theorem referenceableToEntity_eq_heading {it : Referenceable} {p : FsPath}
    {t : String} :
    referenceableToEntity it = some { path := p, info := NamedEntityInfo.heading t }
      ↔ it = Referenceable.heading p { heading_text := t } := by
  cases it with
  | heading path h => cases h; simp [referenceableToEntity]
  | _ => simp [referenceableToEntity]

theorem referenceableToEntity_eq_indexedBlock {it : Referenceable} {p : FsPath}
    {i : String} :
    referenceableToEntity it
        = some { path := p, info := NamedEntityInfo.indexedBlock i }
      ↔ it = Referenceable.indexedBlock p { index := i } := by
  cases it with
  | indexedBlock path b => cases b; simp [referenceableToEntity]
  | _ => simp [referenceableToEntity]

theorem referenceableToEntity_leftInverse (a : Referenceable) (b : NamedEntity)
    (h : referenceableToEntity a = some b) : entityToReferenceable b = a := by
  cases a with
  | file path =>
      simp only [referenceableToEntity, Option.some.injEq] at h
      subst h
      rfl
  | heading path hd =>
      simp only [referenceableToEntity, Option.some.injEq] at h
      subst h
      rfl
  | indexedBlock path bl =>
      simp only [referenceableToEntity, Option.some.injEq] at h
      subst h
      rfl
  | tag path t => exact absurd h (by simp [referenceableToEntity])
  | otherKind path => exact absurd h (by simp [referenceableToEntity])

theorem referenceableToEntity_injective (a a' : Referenceable) (b : NamedEntity)
    (ha : referenceableToEntity a = some b)
    (ha' : referenceableToEntity a' = some b) : a = a' := by
  rw [← referenceableToEntity_leftInverse a b ha,
    ← referenceableToEntity_leftInverse a' b ha']

theorem length_filterMap_referenceableToEntity (l : List Referenceable) :
    (l.filterMap referenceableToEntity).length = l.countP isLinkCandidate := by
  induction l with
  | nil => rfl
  | cons a l ih =>
      cases a <;>
        simp [List.filterMap_cons, List.countP_cons, referenceableToEntity,
          isLinkCandidate, ih]

theorem fromNamedEntity_roundtrip {e : NamedEntity} {m : MatchableNamedEntity}
    (h : MatchableNamedEntity.fromNamedEntity e = some m) :
    MatchableNamedEntity.toNamedEntity m = e := by
  unfold MatchableNamedEntity.fromNamedEntity at h
  cases hf : FsPath.file_name e.path with
  | none => rw [hf] at h; exact absurd h (by simp)
  | some f =>
      rw [hf] at h
      simp only [Option.some.injEq] at h
      rw [← h]
      rfl

theorem collectMatchables_isSome {l : List NamedEntity}
    (h : ∀ e ∈ l, (MatchableNamedEntity.fromNamedEntity e).isSome) :
    (collectMatchables l).isSome := by
  induction l with
  | nil => simp [collectMatchables]
  | cons e es ih =>
      have he := h e (List.mem_cons_self e es)
      have hes := ih (fun x hx => h x (List.mem_cons_of_mem e hx))
      rcases Option.isSome_iff_exists.mp he with ⟨m, hm⟩
      rcases Option.isSome_iff_exists.mp hes with ⟨ms, hms⟩
      simp [collectMatchables, hm, hms]

theorem collectMatchables_none {l : List NamedEntity} {e : NamedEntity}
    (he : e ∈ l) (h : MatchableNamedEntity.fromNamedEntity e = none) :
    collectMatchables l = none := by
  induction l with
  | nil => cases he
  | cons a as ih =>
      rcases List.mem_cons.mp he with rfl | ha
      · simp [collectMatchables, h]
      · cases hfa : MatchableNamedEntity.fromNamedEntity a <;>
          simp [collectMatchables, hfa, ih ha]

theorem collectMatchables_mem {l : List NamedEntity}
    {ms : List MatchableNamedEntity} (h : collectMatchables l = some ms) :
    ∀ m ∈ ms, MatchableNamedEntity.toNamedEntity m ∈ l := by
  induction l generalizing ms with
  | nil =>
      simp [collectMatchables] at h
      subst h
      intro m hm
      cases hm
  | cons a as ih =>
      intro m hm
      cases hfa : MatchableNamedEntity.fromNamedEntity a with
      | none => rw [collectMatchables, hfa] at h; exact absurd h (by simp)
      | some ma =>
          cases hca : collectMatchables as with
          | none => rw [collectMatchables, hfa, hca] at h; exact absurd h (by simp)
          | some mas =>
              rw [collectMatchables, hfa, hca] at h
              simp only [Option.some.injEq] at h
              subst h
              rcases List.mem_cons.mp hm with rfl | hmas
              · rw [fromNamedEntity_roundtrip hfa]
                exact List.mem_cons_self a as
              · exact List.mem_cons_of_mem a (ih hca m hmas)

theorem mem_fuzzy_match {α : Type} [Matchable α]
    {score : String → String → Option Nat} {pat : String} {items : List α}
    {p : α × Nat} (hp : p ∈ fuzzy_match score pat items) : p.1 ∈ items := by
  unfold fuzzy_match match_list at hp
  by_cases hpat : pat = ""
  · rw [if_pos hpat] at hp
    rcases List.mem_map.mp hp with ⟨a, ha, rfl⟩
    exact ha
  · rw [if_neg hpat] at hp
    have hp' := (sortByScoreDesc_perm _).mem_iff.mp hp
    rcases List.mem_filterMap.mp hp' with ⟨a, ha, hfa⟩
    cases hsc : score pat (Matchable.match_string a) with
    | none => rw [hsc] at hfa; exact absurd hfa (by simp)
    | some n =>
        rw [hsc] at hfa
        simp only [Option.map_some', Option.some.injEq] at hfa
        rw [← hfa]
        exact ha

theorem pairwise_map_const_score {α : Type} (l : List α) :
    List.Pairwise (fun x y : α × Nat => y.2 ≤ x.2) (l.map (fun a => (a, 0))) := by
  induction l with
  | nil => simp
  | cons a l ih =>
      simp only [List.map_cons, List.pairwise_cons]
      refine ⟨?_, ih⟩
      intro y hy
      rcases List.mem_map.mp hy with ⟨b, _, rfl⟩
      exact Nat.le_refl 0

/-! ### Claim theorems -/

/-- Claim C3 (confirmed): for every `LinkQuery`, `link_query_string`
returns exactly `file_ref` when `infile_ref` is absent,
`"{file_ref}#{h}"` for `Heading(h)`, and `"{file_ref}#^{i}"` for
`Index(i)`, for all strings (empty included), with no validation and no
failure mode — the function is total over all inputs. -/
theorem link_query_string_cases (file_ref h i : String) :
    link_query_string { file_ref := file_ref, infile_ref := none } = file_ref ∧
    link_query_string { file_ref := file_ref, infile_ref := some (InfileRef.heading h) }
      = file_ref ++ "#" ++ h ∧
    link_query_string { file_ref := file_ref, infile_ref := some (InfileRef.index i) }
      = file_ref ++ "#^" ++ i :=
  ⟨rfl, rfl, rfl⟩

/-- Claim C2 (confirmed): for every `NamedEntity` whose location has a
resolvable file name, the derived canonical match string uses the
file-name component alone (not the full path): the file name for `File`,
`"{file_name}#{h}"` for `Heading(h)`, and `"{file_name}#^{i}"` for
`IndexedBlock(i)`. -/
theorem match_string_derivation (p : FsPath) (fname : String)
    (hf : FsPath.file_name p = some fname) :
    MatchableNamedEntity.fromNamedEntity { path := p, info := NamedEntityInfo.file }
      = some { mstring := fname,
               entity := { path := p, info := NamedEntityInfo.file } } ∧
    (∀ h : String,
      MatchableNamedEntity.fromNamedEntity
          { path := p, info := NamedEntityInfo.heading h }
        = some { mstring := fname ++ "#" ++ h,
                 entity := { path := p, info := NamedEntityInfo.heading h } }) ∧
    (∀ i : String,
      MatchableNamedEntity.fromNamedEntity
          { path := p, info := NamedEntityInfo.indexedBlock i }
        = some { mstring := fname ++ "#^" ++ i,
                 entity := { path := p, info := NamedEntityInfo.indexedBlock i } }) := by
  refine ⟨?_, ?_, ?_⟩ <;>
    (intros; simp [MatchableNamedEntity.fromNamedEntity, hf])

/-- Witness for C2: the nested location `notes/a.md` with a heading
anchor derives `a.md#Intro` — the file name alone, not the full path. -/
theorem match_string_derivation_witness :
    FsPath.file_name pNested = some "a.md" ∧
    MatchableNamedEntity.fromNamedEntity
        { path := pNested, info := NamedEntityInfo.heading "Intro" }
      = some { mstring := "a.md" ++ "#" ++ "Intro",
               entity := { path := pNested, info := NamedEntityInfo.heading "Intro" } } :=
  ⟨rfl, (match_string_derivation pNested "a.md" rfl).2.1 "Intro"⟩

/-- Claim C1 (counterexample): against a vault holding the well-formed
file `a.md` and a file at the malformed location `..`, the conversion of
the malformed entity produces no declared per-entity failure — it is the
unwrap panic (`none`) — and the whole query aborts (`none`), so the
remaining well-formed entity is not scored and not returned. -/
theorem invalid_location_counterexample :
    entGood ∈ Querier.get_named_entities qMixed ∧
    MatchableNamedEntity.fromNamedEntity entBad = none ∧
    Querier.query scoreByLength qMixed lqPlain = none :=
  ⟨by decide, rfl, rfl⟩

/-- Claim C1 (corrected): for every collected entity whose location has
no resolvable file-name component, deriving its match string is the
unchecked unwrap panic (no `InvalidEntityLocation` value exists in the
code), and that panic aborts the whole query — the remaining well-formed
entities are not scored and not returned. -/
theorem invalid_location_aborts_query (score : String → String → Option Nat)
    (q : Querier) (lq : LinkQuery) (e : NamedEntity)
    (he : e ∈ Querier.get_named_entities q)
    (hn : FsPath.file_name e.path = none) :
    MatchableNamedEntity.fromNamedEntity e = none ∧
    Querier.query score q lq = none := by
  have hfe : MatchableNamedEntity.fromNamedEntity e = none := by
    unfold MatchableNamedEntity.fromNamedEntity
    rw [hn]
  refine ⟨hfe, ?_⟩
  unfold Querier.query
  rw [collectMatchables_none he hfe]

/-- Witness for the corrected C1: the file entity at location `..` in
`vaultMixed` panics the conversion and the query. -/
theorem invalid_location_aborts_query_witness :
    (entBad ∈ Querier.get_named_entities qMixed ∧
      FsPath.file_name entBad.path = none) ∧
    (MatchableNamedEntity.fromNamedEntity entBad = none ∧
      Querier.query scoreNothing qMixed lqPlain = none) :=
  ⟨⟨by decide, rfl⟩,
   invalid_location_aborts_query scoreNothing qMixed lqPlain entBad (by decide) rfl⟩

/-- Claim C4 (confirmed): entity collection returns exactly the
referenceable nodes of kinds File, Heading and IndexedBlock — membership
characterises each output entity by the presence of its node, preserving
location and carried data; the output length equals the count of nodes of
those kinds (one entity per node, all other kinds discarded); and a
duplicate-free enumeration yields a duplicate-free output. -/
theorem entity_collection_exact (q : Querier) :
    (∀ p : FsPath,
      (({ path := p, info := NamedEntityInfo.file } : NamedEntity)
          ∈ Querier.get_named_entities q
        ↔ Referenceable.file p ∈ Vault.select_referenceable_nodes q.vault) ∧
      (∀ t : String,
        ({ path := p, info := NamedEntityInfo.heading t } : NamedEntity)
            ∈ Querier.get_named_entities q
          ↔ Referenceable.heading p { heading_text := t }
              ∈ Vault.select_referenceable_nodes q.vault) ∧
      (∀ i : String,
        ({ path := p, info := NamedEntityInfo.indexedBlock i } : NamedEntity)
            ∈ Querier.get_named_entities q
          ↔ Referenceable.indexedBlock p { index := i }
              ∈ Vault.select_referenceable_nodes q.vault)) ∧
    (Querier.get_named_entities q).length
      = (Vault.select_referenceable_nodes q.vault).countP isLinkCandidate ∧
    ((Vault.select_referenceable_nodes q.vault).Nodup →
      (Querier.get_named_entities q).Nodup) := by
  refine ⟨?_, length_filterMap_referenceableToEntity _, ?_⟩
  · intro p
    refine ⟨?_, fun t => ?_, fun i => ?_⟩ <;>
      simp [Querier.get_named_entities, List.mem_filterMap,
        referenceableToEntity_eq_file, referenceableToEntity_eq_heading,
        referenceableToEntity_eq_indexedBlock]
  · intro hnd
    refine List.Nodup.filterMap ?_ hnd
    intro a a' b hb hb'
    exact referenceableToEntity_injective a a' b
      (Option.mem_def.mp hb) (Option.mem_def.mp hb')

/-- Witness for C4: `vaultSmall` (one file, one tag) — its duplicate-free
node list yields a duplicate-free entity list whose length is the number
of candidate-kind nodes. -/
theorem entity_collection_exact_witness :
    (Vault.select_referenceable_nodes qSmall.vault).Nodup ∧
    (Querier.get_named_entities qSmall).Nodup ∧
    (Querier.get_named_entities qSmall).length
      = (Vault.select_referenceable_nodes qSmall.vault).countP isLinkCandidate :=
  ⟨by decide, (entity_collection_exact qSmall).2.2 (by decide),
    (entity_collection_exact qSmall).2.1⟩

/-- Claim C5 (confirmed): for every filter text and candidate sequence,
`fuzzy_match` returns its pairs ordered by descending relevance score,
and candidates of equal score keep their original input order — filtering
the output at any fixed score gives exactly the filtered unsorted scored
list — independently of worker scheduling (the matching stage is a pure
sequential function of its inputs; the source's parallel step only
re-wraps the already-ordered vector with an order-preserving indexed
iterator). -/
theorem fuzzy_match_ordering {α : Type} [Matchable α]
    (score : String → String → Option Nat) (filter_text : String)
    (items : List α) :
    List.Pairwise (fun x y : α × Nat => y.2 ≤ x.2)
      (fuzzy_match score filter_text items) ∧
    ∀ s : Nat,
      (fuzzy_match score filter_text items).filter (fun x => x.2 == s)
        = (scoredCandidates score filter_text items).filter (fun x => x.2 == s) := by
  constructor
  · unfold fuzzy_match match_list
    by_cases hpat : filter_text = ""
    · rw [if_pos hpat]
      exact pairwise_map_const_score items
    · rw [if_neg hpat]
      exact sorted_sortByScoreDesc _
  · intro s
    unfold fuzzy_match match_list scoredCandidates
    by_cases hpat : filter_text = ""
    · rw [if_pos hpat, if_pos hpat]
    · rw [if_neg hpat, if_neg hpat, filter_sortByScoreDesc]

/-- Claim C6 (confirmed): with an empty filter text `fuzzy_match` returns
every candidate, each paired with score 0, in input order; with a
non-empty filter text it returns exactly one scored pair per candidate
the relevance function accepts, and candidates with zero affinity
(relevance `none`) are dropped entirely rather than returned with a 0
score. -/
theorem fuzzy_match_coverage {α : Type} [Matchable α]
    (score : String → String → Option Nat) (items : List α) :
    fuzzy_match score "" items = items.map (fun a => (a, 0)) ∧
    ∀ filter_text : String, filter_text ≠ "" →
      (fuzzy_match score filter_text items).Perm
        (items.filterMap (fun a =>
          Option.map (fun n => (a, n))
            (score filter_text (Matchable.match_string a)))) := by
  constructor
  · unfold fuzzy_match match_list
    rw [if_pos rfl]
  · intro ft hft
    unfold fuzzy_match match_list
    rw [if_neg hft]
    exact sortByScoreDesc_perm _

/-- Witness for C6: the single candidate `a.md` against the non-empty
filter text `a`. -/
theorem fuzzy_match_coverage_witness :
    ("a" ≠ "") ∧
    (fuzzy_match scoreByLength "a" [mGood]).Perm
      ([mGood].filterMap (fun a =>
        Option.map (fun n => (a, n))
          (scoreByLength "a" (Matchable.match_string a)))) :=
  ⟨by decide, (fuzzy_match_coverage scoreByLength [mGood]).2 "a" (by decide)⟩

/-- Claim C7 (confirmed): for every `LinkQuery`, if entity collection
yields zero entities, or every collected candidate scores `none` against
a non-empty query string (the scorer matches nothing), `query` returns
`some []` — the empty sequence, not a failure. -/
theorem query_no_match_empty (score : String → String → Option Nat)
    (q : Querier) (lq : LinkQuery) :
    (Querier.get_named_entities q = [] → Querier.query score q lq = some []) ∧
    ∀ ms : List MatchableNamedEntity,
      collectMatchables (Querier.get_named_entities q) = some ms →
      link_query_string lq ≠ "" →
      (∀ m ∈ ms, score (link_query_string lq) m.mstring = none) →
      Querier.query score q lq = some [] := by
  constructor
  · intro h
    unfold Querier.query
    rw [h]
    simp [collectMatchables, fuzzy_match, match_list, sortByScoreDesc]
  · intro ms hms hpat hnone
    unfold Querier.query
    rw [hms]
    have hnil : ms.filterMap (fun a =>
        Option.map (fun n => (a, n))
          (score (link_query_string lq) (Matchable.match_string a))) = [] := by
      refine List.filterMap_eq_nil_iff.mpr ?_
      intro a ha
      rw [show Matchable.match_string a = a.mstring from rfl, hnone a ha]
      rfl
    simp [fuzzy_match, match_list, if_neg hpat, hnil, sortByScoreDesc]

/-- Witness for C7: the empty vault returns the empty sequence. -/
theorem query_no_match_empty_witness :
    Querier.get_named_entities qEmpty = [] ∧
    Querier.query scoreNothing qEmpty lqPlain = some [] :=
  ⟨rfl, (query_no_match_empty scoreNothing qEmpty lqPlain).1 rfl⟩

/-- Claim C8 (confirmed): for one unchanged vault snapshot and one
`LinkQuery`, every run of `query` — under any splitting of the entity
enumeration across workers, the only scheduling freedom, since results
are reassembled in index order — produces the same output sequence as
the sequential run, hence any two runs produce identical sequences. -/
theorem query_deterministic_runs (score : String → String → Option Nat)
    (q : Querier) (lq : LinkQuery)
    (chunks₁ chunks₂ : List (List Referenceable))
    (h₁ : chunks₁.flatten = Vault.select_referenceable_nodes q.vault)
    (h₂ : chunks₂.flatten = Vault.select_referenceable_nodes q.vault) :
    query_chunked score chunks₁ lq = Querier.query score q lq ∧
    query_chunked score chunks₂ lq = Querier.query score q lq ∧
    query_chunked score chunks₁ lq = query_chunked score chunks₂ lq := by
  have key : ∀ c : List (List Referenceable),
      c.flatten = Vault.select_referenceable_nodes q.vault →
      query_chunked score c lq = Querier.query score q lq := by
    intro c hc
    unfold query_chunked Querier.query get_named_entities_chunked
      Querier.get_named_entities
    rw [parFilterMap_flatten, hc]
  exact ⟨key _ h₁, key _ h₂, (key _ h₁).trans (key _ h₂).symm⟩

/-- Witness for C8: two different worker schedules over `vaultSmall`
give identical query output. -/
theorem query_deterministic_runs_witness :
    (chunksA.flatten = Vault.select_referenceable_nodes qSmall.vault ∧
      chunksB.flatten = Vault.select_referenceable_nodes qSmall.vault) ∧
    query_chunked scoreByLength chunksA lqPlain
      = query_chunked scoreByLength chunksB lqPlain :=
  ⟨⟨rfl, rfl⟩,
   (query_deterministic_runs scoreByLength qSmall lqPlain chunksA chunksB
      rfl rfl).2.2⟩

/-- Claim C9 (confirmed): converting a `NamedEntity` into a
`MatchableNamedEntity` and back yields the original entity unchanged;
`query`'s output is exactly the scorer's pair list with the numeric score
discarded and the scorer's order preserved; and every returned entity is
one of the collected entities. -/
theorem query_roundtrip_projection (score : String → String → Option Nat)
    (q : Querier) (lq : LinkQuery) :
    (∀ (e : NamedEntity) (m : MatchableNamedEntity),
      MatchableNamedEntity.fromNamedEntity e = some m →
      MatchableNamedEntity.toNamedEntity m = e) ∧
    (∀ ms : List MatchableNamedEntity,
      collectMatchables (Querier.get_named_entities q) = some ms →
      Querier.query score q lq
        = some ((fuzzy_match score (link_query_string lq) ms).map
            (fun p => MatchableNamedEntity.toNamedEntity p.1))) ∧
    (∀ out : List NamedEntity, Querier.query score q lq = some out →
      ∀ e ∈ out, e ∈ Querier.get_named_entities q) := by
  refine ⟨fun e m h => fromNamedEntity_roundtrip h, ?_, ?_⟩
  · intro ms hms
    unfold Querier.query
    rw [hms]
  · intro out hout e he
    unfold Querier.query at hout
    cases hcm : collectMatchables (Querier.get_named_entities q) with
    | none => rw [hcm] at hout; exact absurd hout (by simp)
    | some ms =>
        rw [hcm] at hout
        simp only [Option.some.injEq] at hout
        subst hout
        rcases List.mem_map.mp he with ⟨p, hp, rfl⟩
        exact collectMatchables_mem hcm p.1 (mem_fuzzy_match hp)

/-- Witness for C9: the conversion of `a.md` round-trips, and the one
entity that the concrete query returns was collected. -/
theorem query_roundtrip_projection_witness :
    MatchableNamedEntity.toNamedEntity mGood = entGood ∧
    ∀ e ∈ [entGood], e ∈ Querier.get_named_entities qSmall :=
  ⟨(query_roundtrip_projection scoreByLength qSmall lqPlain).1 entGood mGood
      (by decide),
   fun e he => (query_roundtrip_projection scoreByLength qSmall lqPlain).2.2
      [entGood] (by decide) e he⟩

/-- Claim C10 (confirmed): when every collected entity's location has a
resolvable file-name component, `query` never panics (is `some`);
component strings are `String`s, so the valid-UTF-8 part of the
precondition is built into the embedding.  Outside the precondition the
conversion panics: the concrete vault whose only node's path is `..`
makes the conversion, and hence the whole query, `none`. -/
theorem query_panic_characterisation :
    (∀ (score : String → String → Option Nat) (q : Querier) (lq : LinkQuery),
      (∀ e ∈ Querier.get_named_entities q, (FsPath.file_name e.path).isSome) →
      (Querier.query score q lq).isSome) ∧
    MatchableNamedEntity.fromNamedEntity entBad = none ∧
    Querier.query scoreByLength qBadOnly lqPlain = none := by
  refine ⟨?_, rfl, rfl⟩
  intro score q lq h
  have hsome : ∀ e ∈ Querier.get_named_entities q,
      (MatchableNamedEntity.fromNamedEntity e).isSome := by
    intro e he
    have hfn := h e he
    unfold MatchableNamedEntity.fromNamedEntity
    cases hf : FsPath.file_name e.path with
    | none => rw [hf] at hfn; exact absurd hfn (by simp)
    | some f => simp
  rcases Option.isSome_iff_exists.mp (collectMatchables_isSome hsome) with
    ⟨ms, hms⟩
  unfold Querier.query
  rw [hms]
  rfl

/-- Witness for C10: on `vaultSmall` every collected entity has a
resolvable file name, and the query is `some`. -/
theorem query_panic_characterisation_witness :
    (∀ e ∈ Querier.get_named_entities qSmall, (FsPath.file_name e.path).isSome) ∧
    (Querier.query scoreByLength qSmall lqPlain).isSome :=
  ⟨by decide,
   query_panic_characterisation.1 scoreByLength qSmall lqPlain (by decide)⟩
